import Mathlib

/-!
Verification of the coffeeshop request-serving pipeline.

The Go package `coffeeshop` is embedded shallowly: pure data (products,
the seed inventory, JSON trees) becomes Lean structures, the in-memory
store's read methods become pure functions, the HTTP middleware chain of
`Server.ListenAndServe` becomes a sequential handler-transformer pipeline
over an explicit response state and a virtual clock (in nanoseconds, the
unit of Go's `time.Duration`).

External collaborators are modelled at their boundary, from their
documented behaviour:
- `encoding/json`: struct marshalling with `omitempty` tags, map
  marshalling as a JSON object, array/object decoding;
- `net/http`'s `http.Error`, which overwrites the Content-Type header
  with "text/plain; charset=utf-8" before writing the status and message;
- `go-chi/chi/v5`'s `middleware.Timeout`, which installs a context
  deadline and, after the inner handler returns, writes 504 if the
  deadline has passed — it never preempts the handler, and its own
  documentation requires handlers to select on the context to be
  interrupted (nothing in this repository does);
- `go-chi/chi/v5`'s `middleware.SetHeader`, which sets a response header
  before calling the inner handler;
- `time.Sleep`, which ignores the request context: the sleep always
  elapses in full;
- `time.ParseDuration`, modelled on the integer-value + single-unit
  duration forms this repository uses ("100ms", "10s", "150s", "250ms");
  strings of any other shape are rejected, as Go rejects the concrete
  invalid strings considered below.
-/

namespace Coffeeshop

/-- Go `Property` holds additional, dynamic information about the product. -/
structure Property where
  Name : String
  Value : String
deriving DecidableEq, Repr

/-- Go `Product` represents a product in the inventory (struct `Product`).
The JSON tags: id, type, brand, name are always emitted; unit, quantity,
price and properties carry `omitempty`. -/
structure Product where
  ID : String
  Type' : String
  Brand : String
  Name : String
  Unit : String
  Quantity : String
  Price : String
  Properties : List Property
deriving DecidableEq, Repr

/-- The zero value `Product{}` of Go: every field empty. -/
def Product.empty : Product := ⟨"", "", "", "", "", "", "", []⟩

/-- Go `Products` is `map[string]Product`, modelled as an association list;
the list order models the (unordered) contents of the Go map. -/
abbrev Products : Type := List (String × Product)

/-- JSON values, as far as this package produces and consumes them. -/
inductive Json where
  | str : String → Json
  | arr : List Json → Json
  | obj : List (String × Json) → Json

/-- Marshalling of `Property`: both fields required (no omitempty). -/
def marshalProperty (pr : Property) : Json :=
  Json.obj [("name", Json.str pr.Name), ("value", Json.str pr.Value)]

/-- An `omitempty`-tagged string field: omitted exactly when empty. -/
def optField (k v : String) : List (String × Json) :=
  if v = "" then [] else [(k, Json.str v)]

/-- Marshalling of `Product` per its struct tags: required fields first,
optional fields present exactly when non-empty. -/
def marshalProduct (p : Product) : Json :=
  Json.obj
    ([("id", Json.str p.ID), ("type", Json.str p.Type'),
      ("brand", Json.str p.Brand), ("name", Json.str p.Name)]
     ++ optField "unit" p.Unit
     ++ optField "quantity" p.Quantity
     ++ optField "price" p.Price
     ++ (if p.Properties = [] then []
         else [("properties", Json.arr (p.Properties.map marshalProperty))]))

/-- Field lookup in a decoded JSON object (Go keeps the last duplicate;
objects marshalled from maps and structs have no duplicates, so first
lookup is equivalent here). -/
def lookupField : List (String × Json) → String → Option Json
  | [], _ => none
  | (k, v) :: rest, key => if k = key then some v else lookupField rest key

/-- Decoding a string-typed struct field: a missing field leaves the Go
zero value "", a present non-string field is a type error. -/
def fieldString (fs : List (String × Json)) (k : String) : Option String :=
  match lookupField fs k with
  | none => some ""
  | some (Json.str s) => some s
  | some _ => none

/-- Unmarshalling of `Property`. -/
def unmarshalProperty (j : Json) : Option Property :=
  match j with
  | Json.obj fs => do
      let n ← fieldString fs "name"
      let v ← fieldString fs "value"
      pure ⟨n, v⟩
  | _ => none

/-- Decoding a JSON array of properties element by element, as
`encoding/json` decodes a slice. -/
def unmarshalProperties : List Json → Option (List Property)
  | [] => some []
  | j :: js => do
      let p ← unmarshalProperty j
      let ps ← unmarshalProperties js
      pure (p :: ps)

/-- The `properties` field: missing gives the zero (empty) slice, an
array decodes elementwise, anything else is a type error. -/
def fieldProperties (fs : List (String × Json)) : Option (List Property) :=
  match lookupField fs "properties" with
  | none => some []
  | some (Json.arr xs) => unmarshalProperties xs
  | some _ => none

/-- Unmarshalling of `Product`: unknown fields are ignored, missing
fields leave zero values, type mismatches are errors. -/
def unmarshalProduct (j : Json) : Option Product :=
  match j with
  | Json.obj fs => do
      let i ← fieldString fs "id"
      let t ← fieldString fs "type"
      let b ← fieldString fs "brand"
      let n ← fieldString fs "name"
      let u ← fieldString fs "unit"
      let q ← fieldString fs "quantity"
      let pr ← fieldString fs "price"
      let props ← fieldProperties fs
      pure ⟨i, t, b, n, u, q, pr, props⟩
  | _ => none

/-- Go `Products.MarshalJSON`: the method converts the receiver to
`ProductsAlias` (same map type, no methods) and hands it to
`json.Marshal`, which emits a plain `map[string]Product` — a JSON
OBJECT keyed by the map's keys, each value the marshalled product.
(The alias exists only to keep `json.Marshal` from recursing into
`MarshalJSON` itself; the error branch is unreachable for this type.) -/
def Products.MarshalJSON (p : Products) : Json :=
  Json.obj (p.map (fun kv => (kv.1, marshalProduct kv.2)))

/-- Decoding the entries of a JSON object into map entries, as
`encoding/json` fills a `map[string]Product`. -/
def unmarshalProductEntries : List (String × Json) → Option Products
  | [] => some []
  | (k, j) :: rest => do
      let p ← unmarshalProduct j
      let ps ← unmarshalProductEntries rest
      pure ((k, p) :: ps)

/-- Go `Products.UnmarshalJSON`: decodes through the same methodless alias,
i.e. as a plain `map[string]Product` from a JSON object. -/
def Products.UnmarshalJSON (j : Json) : Option Products :=
  match j with
  | Json.obj fs => unmarshalProductEntries fs
  | _ => none

/-- One character of a JSON string, escaped as `encoding/json` escapes it
(quotes, backslash, common control characters, and the HTML-sensitive
characters; other control characters do not occur in this repository's
data). -/
def escapeChar (c : Char) : String :=
  if c = '"' then "\\\""
  else if c = '\\' then "\\\\"
  else if c = '\n' then "\\n"
  else if c = '\r' then "\\r"
  else if c = '\t' then "\\t"
  else if c = '<' then "\\u003c"
  else if c = '>' then "\\u003e"
  else if c = '&' then "\\u0026"
  else String.singleton c

/-- A JSON string literal with its quotes. -/
def renderString (s : String) : String :=
  "\"" ++ String.join (s.toList.map escapeChar) ++ "\""

mutual

/-- Compact rendering, as `json.Marshal` emits bytes. -/
def Json.render : Json → String
  | Json.str s => renderString s
  | Json.arr xs => "[" ++ renderArr xs ++ "]"
  | Json.obj fs => "\x7b" ++ renderObj fs ++ "\x7d"

def renderArr : List Json → String
  | [] => ""
  | [x] => Json.render x
  | x :: y :: xs => Json.render x ++ "," ++ renderArr (y :: xs)

def renderObj : List (String × Json) → String
  | [] => ""
  | [(k, v)] => renderString k ++ ":" ++ Json.render v
  | (k, v) :: kv :: xs =>
      renderString k ++ ":" ++ Json.render v ++ "," ++ renderObj (kv :: xs)

end

/-- Indentation of depth `n`, two spaces per level, as in
`json.MarshalIndent(v, "", "  ")`. -/
def indentN (n : Nat) : String := String.join (List.replicate n "  ")

mutual

/-- Indented rendering at a given depth, as `json.MarshalIndent` with
empty prefix and two-space indent emits bytes. -/
def Json.renderIndentAux : Nat → Json → String
  | _, Json.str s => renderString s
  | _, Json.arr [] => "[]"
  | d, Json.arr (x :: xs) =>
      "[\n" ++ renderArrI (d + 1) (x :: xs) ++ "\n" ++ indentN d ++ "]"
  | _, Json.obj [] => "\x7b\x7d"
  | d, Json.obj (f :: fs) =>
      "\x7b\n" ++ renderObjI (d + 1) (f :: fs) ++ "\n" ++ indentN d ++ "\x7d"

def renderArrI : Nat → List Json → String
  | _, [] => ""
  | d, [x] => indentN d ++ Json.renderIndentAux d x
  | d, x :: y :: xs =>
      indentN d ++ Json.renderIndentAux d x ++ ",\n" ++ renderArrI d (y :: xs)

def renderObjI : Nat → List (String × Json) → String
  | _, [] => ""
  | d, [(k, v)] => indentN d ++ renderString k ++ ": " ++ Json.renderIndentAux d v
  | d, (k, v) :: kv :: xs =>
      indentN d ++ renderString k ++ ": " ++ Json.renderIndentAux d v ++ ",\n"
        ++ renderObjI d (kv :: xs)

end

/-- Go `json.MarshalIndent(v, "", "  ")` as a string. -/
def Json.renderIndent (j : Json) : String := Json.renderIndentAux 0 j

/-- Whether a JSON object carries a field named `k`. -/
def Json.hasField (j : Json) (k : String) : Bool :=
  match j with
  | Json.obj fs => fs.any (fun kv => kv.1 == k)
  | _ => false

/-- The keys of a JSON object, in emitted order. -/
def Json.objKeys (j : Json) : List String :=
  match j with
  | Json.obj fs => fs.map Prod.fst
  | _ => []

/-- The values of a JSON object, in emitted order. -/
def Json.objValues (j : Json) : List Json :=
  match j with
  | Json.obj fs => fs.map Prod.snd
  | _ => []

/-- Go `MemoryStore` holds the products map. The `sync.RWMutex` of the Go
struct brackets the read-only method bodies and has no further effect on
their values, so it carries no model state. -/
structure MemoryStore where
  Products : Products
deriving DecidableEq, Repr

/-- Go map indexing `ms.Products[id]`: exact, case-sensitive key match. -/
def mapIndex : Products → String → Option Product
  | [], _ => none
  | (k, v) :: rest, id => if k = id then some v else mapIndex rest id

/-- Go `MemoryStore.GetAll`: `maps.Values(ms.Products)` under an `RLock`.
`maps.Values` returns the values in unspecified order; the model returns
them in the representation order. The Go signature has no error result:
the call never fails. -/
def MemoryStore.GetAll (ms : MemoryStore) : List Product :=
  ms.Products.map Prod.snd

/-- Go `MemoryStore.GetProduct`: looks `id` up under an `RLock`; on a miss
it returns the zero `Product{}` together with the error
`errors.New("product not found")`, on a hit the product and a nil error.
The error is modelled as `Option String` holding the error message. -/
def MemoryStore.GetProduct (ms : MemoryStore) (id : String) :
    Product × Option String :=
  match mapIndex ms.Products id with
  | none => (Product.empty, some "product not found")
  | some p => (p, none)

/-- The seed inventory, transcribed entry by entry from the package-level
`inventory` map literal. -/
def inventory : Products :=
  [("1",
    { ID := "1", Type' := "Coffee", Brand := "Segafredo", Name := "Intermezzo",
      Unit := "gram", Quantity := "1000", Price := "7.99",
      Properties :=
        [{ Name := "flavour",
           Value := "Acidic Robusta, Nuts, Aromatic Arabica, Caramel, Medium roasted beans" },
         { Name := "property", Value := "1000 grams, Arabica/Robusta" },
         { Name := "intensity", Value := "" }] }),
   ("2",
    { ID := "2", Type' := "Coffee", Brand := "Segafredo",
      Name := "Caff√© Crema Gustoso",
      Unit := "gram", Quantity := "1000", Price := "11.99",
      Properties :=
        [{ Name := "flavour",
           Value := "Acidic Robusta, Nuts, Aromatic Arabica, Medium roasted beans" },
         { Name := "property", Value := "1000 grams, Arabica/Robusta" },
         { Name := "intensity", Value := "Medium (6/10)" }] }),
   ("3",
    { ID := "3", Type' := "Coffee", Brand := "Segafredo",
      Name := "Selezione Espresso",
      Unit := "gram", Quantity := "1000", Price := "10.49",
      Properties :=
        [{ Name := "flavour",
           Value := "Dark Chocolate, Acidic Robusta, Dark roasted beans, Aromatic Arabica" },
         { Name := "property", Value := "1000 grams, Arabica/Robusta" }] }),
   ("4",
    { ID := "4", Type' := "Coffee", Brand := "illy", Name := "Intenso",
      Unit := "gram", Quantity := "250", Price := "7.99",
      Properties :=
        [{ Name := "flavour",
           Value := "Fruit, Chocolate, Dark roasted beans, Bitterness" },
         { Name := "property", Value := "250 grams, Arabica" },
         { Name := "intensity", Value := "Very strong (9/10)" }] }),
   ("5",
    { ID := "5", Type' := "Coffee", Brand := "illy", Name := "Guatemala",
      Unit := "gram", Quantity := "250", Price := "7.99",
      Properties :=
        [{ Name := "flavour", Value := "Honey, Caramel, Sweetness" },
         { Name := "property", Value := "250 gram, Arabica" },
         { Name := "intensity", Value := "Medium (6/10)" }] }),
   ("6",
    { ID := "6", Type' := "Coffee", Brand := "Lavazza",
      Name := "Espresso Barista Perfetto",
      Unit := "gram", Quantity := "1000", Price := "12.99",
      Properties :=
        [{ Name := "flavour", Value := "Aromatic Arabica, Medium roasted beans" },
         { Name := "property", Value := "250 gram, Arabica" },
         { Name := "intensity", Value := "Medium (6/10)" }] })]

/-- The store `Run` seeds: `MemoryStore{Products: inventory}`. -/
def seedStore : MemoryStore := { Products := inventory }

/-- Value in nanoseconds of one duration unit accepted by the model of
`time.ParseDuration`. -/
def unitScale : String → Option Nat
  | "ns" => some 1
  | "us" => some 1000
  | "µs" => some 1000
  | "ms" => some 1000000
  | "s" => some 1000000000
  | "m" => some (60 * 1000000000)
  | "h" => some (3600 * 1000000000)
  | _ => none

/-- Digits of a decimal number as a `Nat`. -/
def digitsToNat (cs : List Char) : Nat :=
  cs.foldl (fun n c => n * 10 + (c.toNat - '0'.toNat)) 0

/-- Go `time.ParseDuration`, modelled on the duration forms this repository
uses: a non-empty run of decimal digits followed by one unit (and the
special form "0"); `none` models a parse error. Go additionally accepts
signs, fractions and multi-unit forms, none of which occur here; every
string this development feeds the parser is either of the modelled shape
or rejected by Go as well. Result in nanoseconds (`time.Duration`). -/
def parseDuration (s : String) : Option Nat :=
  if s = "0" then some 0
  else
    let digits := s.toList.takeWhile Char.isDigit
    let unit := s.toList.dropWhile Char.isDigit
    if digits = [] then none
    else
      match unitScale (String.mk unit) with
      | none => none
      | some scale => some (digitsToNat digits * scale)

/-- Go `latencyFromEnv`: with the env value present it must parse, else the
fallback must parse; a failed parse panics. `envVal` models
`os.LookupEnv(key)` and `none` in the result models the panic, which
aborts startup. -/
def latencyFromEnv (envVal : Option String) (fallback : String) : Option Nat :=
  match envVal with
  | some v => parseDuration v
  | none => parseDuration fallback

/-- The fields of the embedded `http.Server` that `New` populates. -/
structure HTTPServer where
  Addr : String
  ReadTimeout : Nat
  WriteTimeout : Nat
deriving DecidableEq, Repr

/-- Go `Server` holds data for the CoffeeShop server. -/
structure Server where
  HTTPServer : HTTPServer
  URL : String
  Latency : Nat
  Store : MemoryStore
deriving DecidableEq, Repr

/-- The functional-option type `option`: mutates the server and may
return an error. Modelled as the resulting server paired with the
returned error (`some` = non-nil). -/
def option : Type := Server → Server × Option String

/-- Go `WithLatency` configures a custom latency for all routes: it parses
the duration and on failure returns the parse error without touching the
server. The model keeps the offending string as the error value. -/
def WithLatency (latency : String) : option := fun s =>
  match parseDuration latency with
  | some v => ({ s with Latency := v }, none)
  | none => (s, some latency)

/-- Go `New` creates a new coffeeshop server: 30s read/write timeouts, URL
derived from the address, latency from the environment (default
"100ms"), then the options applied in order — `o(&srv)` DISCARDS each
option's returned error. `envLatency` models the `COFFEESHOP_LATENCY`
environment variable; a `none` result models the startup panic of
`latencyFromEnv`. -/
def New (addr : String) (envLatency : Option String) (store : MemoryStore)
    (options : List option) : Option Server :=
  match latencyFromEnv envLatency "100ms" with
  | none => none
  | some lat =>
      some (options.foldl (fun s o => (o s).1)
        { HTTPServer :=
            { Addr := addr,
              ReadTimeout := 30 * 1000000000,
              WriteTimeout := 30 * 1000000000 },
          URL := "http://" ++ addr ++ "/",
          Latency := lat,
          Store := store })

/-- The observable state of an `http.ResponseWriter`. `headerCT` is the
current Content-Type entry of the header map; the first write of the
status line (`committed`) snapshots it into `sentCT`, the value actually
sent on the wire — later header-map changes have no wire effect. `body`
collects the bytes written (`http.Error` terminates its message with a
newline via `Fprintln`; the model records the message itself, the
claim-relevant content). -/
structure RespState where
  headerCT : String
  committed : Bool
  status : Nat
  sentCT : String
  body : String
deriving DecidableEq, Repr

/-- A fresh `http.ResponseWriter` for one request. -/
def RespState.init : RespState :=
  { headerCT := "", committed := false, status := 0, sentCT := "", body := "" }

/-- Go `w.WriteHeader(code)`: commits the status line once; a second call is
superfluous and changes nothing. -/
def writeHeader (w : RespState) (code : Nat) : RespState :=
  if w.committed then w
  else { w with committed := true, status := code, sentCT := w.headerCT }

/-- Go `w.Write(data)`: an implicit `WriteHeader(200)` if the status line is
not yet committed, then the bytes. -/
def write (w : RespState) (data : String) : RespState :=
  let w1 := writeHeader w 200
  { w1 with body := w1.body ++ data }

/-- Go `http.Error(w, msg, code)`: sets the Content-Type header to
"text/plain; charset=utf-8" (overwriting any earlier value), writes the
status, then the message. -/
def httpError (w : RespState) (msg : String) (code : Nat) : RespState :=
  let w1 := writeHeader { w with headerCT := "text/plain; charset=utf-8" } code
  { w1 with body := w1.body ++ msg }

/-- The state a request handler acts on: a virtual clock in nanoseconds
(started at the instant the middleware chain begins) and the response
writer. -/
structure HttpState where
  clock : Nat
  resp : RespState
deriving DecidableEq, Repr

/-- The routes of the chi mux, with the `{productID}` URL parameter
already bound by the router's pattern match; `other` is any path
matching neither pattern. -/
inductive ReqPath where
  | products : ReqPath
  | product : String → ReqPath
  | other : String → ReqPath

/-- Go `http.Handler`, over the explicit state. -/
def Handler : Type := ReqPath → HttpState → HttpState

/-- Go `Delay` middleware: `time.Sleep(d)` then the next handler. The sleep
ignores the request context, so it always elapses in full — the clock
unconditionally advances by `d`. -/
def Delay (d : Nat) (next : Handler) : Handler := fun req st =>
  next req { st with clock := st.clock + d }

/-- Go `middleware.SetHeader("Content-Type", v)` of chi: sets the response
header, then calls the next handler. -/
def SetHeaderCT (v : String) (next : Handler) : Handler := fun req st =>
  next req { st with resp := { st.resp with headerCT := v } }

/-- Go `middleware.Timeout(t)` of chi: installs a context deadline, calls
the next handler, and afterwards — the context deadline having been
consulted by nobody in this package — writes 504 if the deadline has
passed by then. It never preempts the handler. -/
def TimeoutMW (t : Nat) (next : Handler) : Handler := fun req st =>
  let deadline := st.clock + t
  let st1 := next req st
  if deadline ≤ st1.clock then { st1 with resp := writeHeader st1.resp 504 }
  else st1

/-- Go `Server.GetProducts`: marshals `Store.GetAll()` with
`json.MarshalIndent(products, "", "  ")` and writes it. Marshalling a
product slice cannot fail, so the 500 branch is unreachable in the
model. -/
def Server.GetProducts (cs : Server) : Handler := fun _ st =>
  { st with
    resp := write st.resp
      (Json.renderIndent (Json.arr ((cs.Store.GetAll).map marshalProduct))) }

/-- Go `Server.GetProduct`: reads the `productID` URL parameter, queries the
store, answers 404 "product not found" on a miss and the compact JSON of
the product on a hit; marshalling a product cannot fail, so the 500
branch is unreachable in the model. -/
def Server.GetProduct (cs : Server) : Handler := fun req st =>
  match req with
  | ReqPath.product id =>
      match cs.Store.GetProduct id with
      | (p, none) => { st with resp := write st.resp (Json.render (marshalProduct p)) }
      | (_, some _) => { st with resp := httpError st.resp "product not found" 404 }
  | _ => st

/-- The route dispatch of the chi mux built in `ListenAndServe`:
`GET /products`, `GET /products/{productID}`, and chi's default
not-found handler (`http.NotFound`, i.e.
`http.Error(w, "404 page not found", 404)`) for everything else. -/
def routeHTTP (cs : Server) : Handler := fun req st =>
  match req with
  | ReqPath.products => cs.GetProducts req st
  | ReqPath.product _ => cs.GetProduct req st
  | ReqPath.other _ => { st with resp := httpError st.resp "404 page not found" 404 }

/-- The complete per-request pipeline of `Server.ListenAndServe`:
`middleware.Timeout(120s)`, then
`middleware.SetHeader("Content-Type", "application/json; charset=utf-8")`,
then `Delay(cs.Latency)`, then the matched handler — applied to a fresh
response writer at clock 0. -/
def Server.serveHTTP (cs : Server) (req : ReqPath) : HttpState :=
  TimeoutMW (120 * 1000000000)
    (SetHeaderCT "application/json; charset=utf-8"
      (Delay cs.Latency (routeHTTP cs)))
    req { clock := 0, resp := RespState.init }

/-- The server `Run` builds when the environment variable is unset:
address ":8088", seed store, no options, default latency 100ms. -/
def defaultServer : Server :=
  { HTTPServer :=
      { Addr := ":8088",
        ReadTimeout := 30 * 1000000000,
        WriteTimeout := 30 * 1000000000 },
    URL := "http://:8088/",
    Latency := 100 * 1000000,
    Store := seedStore }

/-- The same server with `COFFEESHOP_LATENCY=150s`: latency 150e9 ns,
exceeding the 120s guard of `middleware.Timeout`. -/
def server150s : Server :=
  { defaultServer with Latency := 150 * 1000000000 }

/-- A one-entry product mapping used to exhibit the shape
`Products.MarshalJSON` actually emits. -/
def sampleProduct : Product :=
  { ID := "7", Type' := "Tea", Brand := "Acme", Name := "Green",
    Unit := "", Quantity := "", Price := "", Properties := [] }

/-- The mapping holding just `sampleProduct` under key "7". -/
def sampleProducts : Products := [("7", sampleProduct)]

/-- The read operations `MemoryStore` exposes. -/
inductive StoreOp where
  | getAll : StoreOp
  | getProduct : String → StoreOp

/-- The result a store operation hands its caller. -/
inductive StoreResult where
  | all : List Product → StoreResult
  | one : Product × Option String → StoreResult
deriving DecidableEq, Repr

/-- One store call as a state transformer: the method bodies of `GetAll`
and `GetProduct` only read `ms.Products` (under `RLock`/`RUnlock`, which
restore the lock), assigning to no field, so the store each call leaves
behind is the receiver itself. -/
def MemoryStore.runOp (ms : MemoryStore) : StoreOp → MemoryStore × StoreResult
  | StoreOp.getAll => (ms, StoreResult.all ms.GetAll)
  | StoreOp.getProduct id => (ms, StoreResult.one (ms.GetProduct id))

/-- A sequence of store calls, threading the store state. -/
def MemoryStore.runOps (ms : MemoryStore) (ops : List StoreOp) : MemoryStore :=
  ops.foldl (fun s op => (s.runOp op).1) ms

/-! Helper lemmas shared by the claim theorems. -/

theorem writeHeader_of_committed (w : RespState) (c : Nat)
    (h : w.committed = true) : writeHeader w c = w := by
  simp [writeHeader, h]

theorem mapIndex_eq_none_of_not_mem (ps : Products) (id : String)
    (h : id ∉ ps.map Prod.fst) : mapIndex ps id = none := by
  induction ps with
  | nil => rfl
  | cons kv t ih =>
      simp only [List.map_cons, List.mem_cons, not_or] at h
      cases kv with
      | mk k v =>
          simp only [mapIndex]
          rw [if_neg (fun hk : k = id => h.1 hk.symm)]
          exact ih h.2

theorem serveHTTP_products_eq (cs : Server) :
    cs.serveHTTP ReqPath.products =
      { clock := cs.Latency,
        resp :=
          { headerCT := "application/json; charset=utf-8",
            committed := true,
            status := 200,
            sentCT := "application/json; charset=utf-8",
            body := Json.renderIndent
              (Json.arr ((cs.Store.GetAll).map marshalProduct)) } } := by
  unfold Server.serveHTTP TimeoutMW SetHeaderCT Delay routeHTTP Server.GetProducts
  simp only [write, writeHeader, RespState.init, Nat.zero_add]
  split <;> rfl

theorem serveHTTP_product_found (cs : Server) (id : String) (p : Product)
    (h : mapIndex cs.Store.Products id = some p) :
    cs.serveHTTP (ReqPath.product id) =
      { clock := cs.Latency,
        resp :=
          { headerCT := "application/json; charset=utf-8",
            committed := true,
            status := 200,
            sentCT := "application/json; charset=utf-8",
            body := Json.render (marshalProduct p) } } := by
  unfold Server.serveHTTP TimeoutMW SetHeaderCT Delay routeHTTP Server.GetProduct
  simp only [MemoryStore.GetProduct, h, write, writeHeader, RespState.init,
    Nat.zero_add]
  split <;> rfl

theorem serveHTTP_product_missing (cs : Server) (id : String)
    (h : mapIndex cs.Store.Products id = none) :
    cs.serveHTTP (ReqPath.product id) =
      { clock := cs.Latency,
        resp :=
          { headerCT := "text/plain; charset=utf-8",
            committed := true,
            status := 404,
            sentCT := "text/plain; charset=utf-8",
            body := "product not found" } } := by
  unfold Server.serveHTTP TimeoutMW SetHeaderCT Delay routeHTTP Server.GetProduct
  simp only [MemoryStore.GetProduct, h, httpError, writeHeader, RespState.init,
    Nat.zero_add]
  split <;> rfl

theorem serveHTTP_other_eq (cs : Server) (path : String) :
    cs.serveHTTP (ReqPath.other path) =
      { clock := cs.Latency,
        resp :=
          { headerCT := "text/plain; charset=utf-8",
            committed := true,
            status := 404,
            sentCT := "text/plain; charset=utf-8",
            body := "404 page not found" } } := by
  unfold Server.serveHTTP TimeoutMW SetHeaderCT Delay routeHTTP
  simp only [httpError, writeHeader, RespState.init, Nat.zero_add]
  split <;> rfl

theorem unmarshal_marshal_property (pr : Property) :
    unmarshalProperty (marshalProperty pr) = some pr := rfl

theorem unmarshal_marshal_properties (l : List Property) :
    unmarshalProperties (l.map marshalProperty) = some l := by
  induction l with
  | nil => rfl
  | cons p t ih =>
      simp [unmarshalProperties, unmarshal_marshal_property, ih]

theorem unmarshal_marshal_product (p : Product) :
    unmarshalProduct (marshalProduct p) = some p := by
  obtain ⟨pid, pty, pbr, pnm, pu, pq, ppr, pprops⟩ := p
  unfold marshalProduct optField
  simp only []
  split_ifs with hu hq hp hpr <;>
    simp_all [unmarshalProduct, fieldString, lookupField, fieldProperties,
      unmarshal_marshal_properties]

theorem unmarshal_marshal_entries (ps : Products) :
    unmarshalProductEntries
      (ps.map (fun kv => (kv.1, marshalProduct kv.2))) = some ps := by
  induction ps with
  | nil => rfl
  | cons kv t ih =>
      simp [unmarshalProductEntries, unmarshal_marshal_product, ih]

theorem hasField_unit (p : Product) :
    ((marshalProduct p).hasField "unit" = true) ↔ p.Unit ≠ "" := by
  obtain ⟨pid, pty, pbr, pnm, pu, pq, ppr, pprops⟩ := p
  unfold marshalProduct optField
  split_ifs with hu hq hp hpr <;>
    simp_all [Json.hasField]

theorem hasField_quantity (p : Product) :
    ((marshalProduct p).hasField "quantity" = true) ↔ p.Quantity ≠ "" := by
  obtain ⟨pid, pty, pbr, pnm, pu, pq, ppr, pprops⟩ := p
  unfold marshalProduct optField
  split_ifs with hu hq hp hpr <;>
    simp_all [Json.hasField]

theorem hasField_price (p : Product) :
    ((marshalProduct p).hasField "price" = true) ↔ p.Price ≠ "" := by
  obtain ⟨pid, pty, pbr, pnm, pu, pq, ppr, pprops⟩ := p
  unfold marshalProduct optField
  split_ifs with hu hq hp hpr <;>
    simp_all [Json.hasField]

theorem hasField_properties (p : Product) :
    ((marshalProduct p).hasField "properties" = true) ↔ p.Properties ≠ [] := by
  obtain ⟨pid, pty, pbr, pnm, pu, pq, ppr, pprops⟩ := p
  unfold marshalProduct optField
  split_ifs with hu hq hp hpr <;>
    simp_all [Json.hasField]

/-! The claim theorems. -/

/-- Claim C3: for every identifier that is a key of the seeded inventory,
`GetProduct(id)` succeeds (nil error) and returns a Product whose id
field equals the identifier; for every identifier not in the seed set,
`GetProduct` returns the zero Product with the "product not found"
error, and the single-item endpoint responds 404 with the plain-text
body "product not found". -/
theorem getProduct_seeded_hit_unknown_miss (id : String) :
    (id ∈ inventory.map Prod.fst →
       (seedStore.GetProduct id).2 = none
     ∧ (seedStore.GetProduct id).1.ID = id)
  ∧ (id ∉ inventory.map Prod.fst →
       seedStore.GetProduct id = (Product.empty, some "product not found")
     ∧ (defaultServer.serveHTTP (ReqPath.product id)).resp.status = 404
     ∧ (defaultServer.serveHTTP (ReqPath.product id)).resp.body
         = "product not found") := by
  have hall : ∀ x ∈ inventory.map Prod.fst,
      (seedStore.GetProduct x).2 = none ∧ (seedStore.GetProduct x).1.ID = x := by
    decide
  refine ⟨fun h => hall id h, fun h => ?_⟩
  have hnone : mapIndex inventory id = none :=
    mapIndex_eq_none_of_not_mem inventory id h
  have hmiss := serveHTTP_product_missing defaultServer id hnone
  refine ⟨?_, ?_, ?_⟩
  · simp [MemoryStore.GetProduct, seedStore, hnone]
  · rw [hmiss]
  · rw [hmiss]

/-- Witness for C3 at the seeded key "1" and the unknown key "999". -/
theorem getProduct_seeded_hit_unknown_miss_witness :
    ((seedStore.GetProduct "1").1.ID = "1")
  ∧ (defaultServer.serveHTTP (ReqPath.product "999")).resp.status = 404 :=
  ⟨((getProduct_seeded_hit_unknown_miss "1").1 (by decide)).2,
   ((getProduct_seeded_hit_unknown_miss "999").2 (by decide)).2.1⟩

/-- Claim C4: `GetAll()` on the seeded store returns exactly 6 products —
pairwise distinct, and exactly the products of the seed inventory, so
with no duplicates and no omissions; the Go signature returns no error,
so the call never fails. -/
theorem getAll_seed_six_distinct_complete :
    seedStore.GetAll.length = 6
  ∧ seedStore.GetAll.Nodup
  ∧ seedStore.GetAll = inventory.map Prod.snd :=
  ⟨rfl, by decide, rfl⟩

/-- Claim C7: serializing a `Product` and deserializing it restores every
field, including the original emptiness of the optional fields, which
are present in the JSON exactly when non-empty; likewise a whole
`Products` mapping round-trips through its Marshal/Unmarshal pair. -/
theorem product_and_mapping_json_roundtrip (p : Product) (ps : Products) :
    unmarshalProduct (marshalProduct p) = some p
  ∧ Products.UnmarshalJSON (Products.MarshalJSON ps) = some ps
  ∧ ((marshalProduct p).hasField "unit" = true ↔ p.Unit ≠ "")
  ∧ ((marshalProduct p).hasField "quantity" = true ↔ p.Quantity ≠ "")
  ∧ ((marshalProduct p).hasField "price" = true ↔ p.Price ≠ "")
  ∧ ((marshalProduct p).hasField "properties" = true ↔ p.Properties ≠ []) :=
  ⟨unmarshal_marshal_product p,
   by simp [Products.UnmarshalJSON, Products.MarshalJSON,
     unmarshal_marshal_entries],
   hasField_unit p, hasField_quantity p, hasField_price p,
   hasField_properties p⟩

/-- Claim C9: whenever `MemoryStore.GetProduct` returns a non-nil error,
the Product returned alongside it is the zero value `Product{}`. -/
theorem getProduct_error_returns_zero_product (ms : MemoryStore) (id : String)
    (h : (ms.GetProduct id).2.isSome = true) :
    (ms.GetProduct id).1 = Product.empty := by
  unfold MemoryStore.GetProduct at h ⊢
  cases hidx : mapIndex ms.Products id with
  | none => simp [hidx]
  | some p => simp [hidx] at h

/-- Witness for C9 at the seeded store and the unknown key "999". -/
theorem getProduct_error_returns_zero_product_witness :
    (seedStore.GetProduct "999").2.isSome = true
  ∧ (seedStore.GetProduct "999").1 = Product.empty :=
  ⟨by decide, getProduct_error_returns_zero_product seedStore "999" (by decide)⟩

/-- Claim C10: `GetAll` and `GetProduct` leave the store's Products
mapping unchanged — after any single call and after any sequence of
calls the store equals what it was before. -/
theorem store_reads_preserve_products (ms : MemoryStore) (ops : List StoreOp)
    (op : StoreOp) :
    MemoryStore.runOps ms ops = ms ∧ (ms.runOp op).1 = ms := by
  constructor
  · induction ops with
    | nil => rfl
    | cons o t ih =>
        cases o <;> simpa [MemoryStore.runOps, MemoryStore.runOp] using ih
  · cases op <;> rfl

/-- Claim C1, counterexample: with `COFFEESHOP_LATENCY=150s` (the server
`New` builds is `server150s`), a request to `/products` is NOT aborted
by the 120s guard before the delay elapses: the clock at completion is
the full 150s, the committed status is 200 — not 504 — and the body is
the successful products payload. -/
theorem latency150s_request_not_aborted_by_guard :
    New ":8088" (some "150s") seedStore [] = some server150s
  ∧ (server150s.serveHTTP ReqPath.products).clock = 150 * 1000000000
  ∧ (server150s.serveHTTP ReqPath.products).resp.status = 200
  ∧ (server150s.serveHTTP ReqPath.products).resp.status ≠ 504
  ∧ (server150s.serveHTTP ReqPath.products).resp.body
      = Json.renderIndent (Json.arr ((seedStore.GetAll).map marshalProduct)) := by
  have h := serveHTTP_products_eq server150s
  refine ⟨rfl, ?_, ?_, ?_, ?_⟩ <;> rw [h] <;> simp [server150s, defaultServer]

/-- Claim C1, amended: when the configured latency is at least the 120s
guard, the guard's context deadline expires during the delay, but
`time.Sleep` ignores the context, so the delay elapses in full (the
completion clock equals the latency, which is past the deadline) and the
handler writes its normal response — identical to the response of the
same server with any other latency — and the committed status is never
the guard's 504. (At the transport level the 30s write timeout then
prevents delivery; the guard itself aborts nothing.) -/
theorem guard_expiry_does_not_interrupt_delay (cs : Server) (d : Nat)
    (req : ReqPath) (h : 120 * 1000000000 ≤ d) :
    (({ cs with Latency := d } : Server).serveHTTP req).clock = d
  ∧ 120 * 1000000000 ≤ (({ cs with Latency := d } : Server).serveHTTP req).clock
  ∧ (({ cs with Latency := d } : Server).serveHTTP req).resp
      = (cs.serveHTTP req).resp
  ∧ (({ cs with Latency := d } : Server).serveHTTP req).resp.status ≠ 504 := by
  cases req with
  | products =>
      have h1 := serveHTTP_products_eq ({ cs with Latency := d } : Server)
      have h2 := serveHTTP_products_eq cs
      rw [h1, h2]
      exact ⟨rfl, h, rfl, by simp⟩
  | product id =>
      cases hidx : mapIndex cs.Store.Products id with
      | none =>
          have h1 := serveHTTP_product_missing ({ cs with Latency := d } : Server) id hidx
          have h2 := serveHTTP_product_missing cs id hidx
          rw [h1, h2]
          exact ⟨rfl, h, rfl, by simp⟩
      | some p =>
          have h1 := serveHTTP_product_found ({ cs with Latency := d } : Server) id p hidx
          have h2 := serveHTTP_product_found cs id p hidx
          rw [h1, h2]
          exact ⟨rfl, h, rfl, by simp⟩
  | other path =>
      have h1 := serveHTTP_other_eq ({ cs with Latency := d } : Server) path
      have h2 := serveHTTP_other_eq cs path
      rw [h1, h2]
      exact ⟨rfl, h, rfl, by simp⟩

/-- Witness for the amended C1: the default server at latency 150s
answers `/products` with the very response of the 100ms server. -/
theorem guard_expiry_does_not_interrupt_delay_witness :
    (({ defaultServer with Latency := 150 * 1000000000 } : Server).serveHTTP
        ReqPath.products).resp
      = (defaultServer.serveHTTP ReqPath.products).resp
  ∧ (({ defaultServer with Latency := 150 * 1000000000 } : Server).serveHTTP
        ReqPath.products).clock = 150 * 1000000000 :=
  ⟨(guard_expiry_does_not_interrupt_delay defaultServer (150 * 1000000000)
      ReqPath.products (by norm_num)).2.2.1,
   (guard_expiry_does_not_interrupt_delay defaultServer (150 * 1000000000)
      ReqPath.products (by norm_num)).1⟩

/-- Claim C2, counterexample: the 404 response for the unknown product
"999" carries Content-Type "text/plain; charset=utf-8" — `http.Error`
overwrites the header the middleware set — so not every response has
the JSON Content-Type. -/
theorem missing_product_response_is_text_plain :
    (defaultServer.serveHTTP (ReqPath.product "999")).resp.status = 404
  ∧ (defaultServer.serveHTTP (ReqPath.product "999")).resp.sentCT
      = "text/plain; charset=utf-8"
  ∧ (defaultServer.serveHTTP (ReqPath.product "999")).resp.sentCT
      ≠ "application/json; charset=utf-8" := by
  have hnone : mapIndex defaultServer.Store.Products "999" = none := by decide
  have h := serveHTTP_product_missing defaultServer "999" hnone
  rw [h]
  exact ⟨rfl, rfl, by decide⟩

/-- Claim C2, amended: a response carries Content-Type
"application/json; charset=utf-8" exactly when its status is 200 (the
success paths, which keep the header the middleware set); every other
response — the 404 for an unknown product and the dispatcher's 404 for
an unmatched route — is written through `http.Error`, which overwrites
the Content-Type to "text/plain; charset=utf-8". This holds for every
server configuration and every request. -/
theorem contentType_json_iff_success (cs : Server) (req : ReqPath) :
    (cs.serveHTTP req).resp.sentCT =
      (if (cs.serveHTTP req).resp.status = 200
       then "application/json; charset=utf-8"
       else "text/plain; charset=utf-8") := by
  cases req with
  | products => rw [serveHTTP_products_eq cs]; simp
  | product id =>
      cases hidx : mapIndex cs.Store.Products id with
      | none => rw [serveHTTP_product_missing cs id hidx]; simp
      | some p => rw [serveHTTP_product_found cs id p hidx]; simp
  | other path => rw [serveHTTP_other_eq cs path]; simp

/-- Claim C5, counterexample: `Products.MarshalJSON` on the one-entry
mapping produces the JSON OBJECT keeping key "7", not a JSON array of
the values. -/
theorem marshalJSON_emits_object_not_array :
    Products.MarshalJSON sampleProducts
      = Json.obj [("7", marshalProduct sampleProduct)]
  ∧ Products.MarshalJSON sampleProducts
      ≠ Json.arr [marshalProduct sampleProduct] :=
  ⟨rfl, fun h => Json.noConfusion h⟩

/-- Claim C5, amended: `Products.MarshalJSON` serializes the mapping as
a JSON object — the alias only stops `json.Marshal` from recursing into
the method — whose keys are exactly the mapping's keys (preserved, not
dropped) and whose values are the marshalled products; the JSON array
of values served on `/products` comes from the handler marshalling
`GetAll()`'s value slice, not from this method. -/
theorem marshalJSON_object_preserves_keys (ps : Products) :
    Products.MarshalJSON ps
      = Json.obj (ps.map fun kv => (kv.1, marshalProduct kv.2))
  ∧ (Products.MarshalJSON ps).objKeys = ps.map Prod.fst
  ∧ (Products.MarshalJSON ps).objValues
      = ps.map (fun kv => marshalProduct kv.2) := by
  refine ⟨rfl, ?_, ?_⟩ <;>
    simp [Products.MarshalJSON, Json.objKeys, Json.objValues]

/-- Claim C6, counterexample: "coffee" does not parse as a duration, yet
`New` with `WithLatency "coffee"` is not a fatal configuration error —
construction succeeds and yields exactly the default server (latency
100ms). Only the environment-variable path is fatal at startup. -/
theorem invalid_withLatency_is_not_fatal :
    parseDuration "coffee" = none
  ∧ New ":8088" none seedStore [WithLatency "coffee"] = some defaultServer
  ∧ defaultServer.Latency = 100 * 1000000 :=
  ⟨rfl, rfl, rfl⟩

/-- Claim C6, amended: the latency defaults to 100ms when no
configuration is given and can be overridden by a parseable
`WithLatency` option; an unparseable `COFFEESHOP_LATENCY` environment
value is fatal at startup (`latencyFromEnv` panics before serving), but
an unparseable `WithLatency` option is NOT fatal: `New` discards the
option's error and keeps the environment/default latency. -/
theorem latency_default_override_env_fatal_option_ignored
    (addr good bad : String) (st : MemoryStore) (v : Nat)
    (opts : List option)
    (hgood : parseDuration good = some v) (hbad : parseDuration bad = none) :
    (New addr none st []).map Server.Latency = some (100 * 1000000)
  ∧ (New addr none st [WithLatency good]).map Server.Latency = some v
  ∧ New addr (some bad) st opts = none
  ∧ New addr none st [WithLatency bad] = New addr none st [] := by
  have h100 : parseDuration "100ms" = some (100 * 1000000) := rfl
  refine ⟨?_, ?_, ?_, ?_⟩ <;>
    simp [New, latencyFromEnv, h100, WithLatency, hgood, hbad]

/-- Witness for the amended C6 at good "10s", bad "coffee". -/
theorem latency_default_override_env_fatal_option_ignored_witness :
    New ":8088" (some "coffee") seedStore [] = none
  ∧ (New ":8088" none seedStore [WithLatency "10s"]).map Server.Latency
      = some 10000000000 :=
  ⟨(latency_default_override_env_fatal_option_ignored ":8088" "10s" "coffee"
      seedStore 10000000000 [] rfl rfl).2.2.1,
   (latency_default_override_env_fatal_option_ignored ":8088" "10s" "coffee"
      seedStore 10000000000 [] rfl rfl).2.1⟩

/-- Claim C8: an unparseable `WithLatency` option is silently discarded
by `New` — inserting it anywhere in the option list leaves the
constructed server exactly as without it (construction succeeds and the
latency stays the environment-derived or default value). -/
theorem new_discards_withLatency_error (addr : String) (env : Option String)
    (st : MemoryStore) (bad : String) (pre post : List option)
    (h : parseDuration bad = none) :
    New addr env st (pre ++ WithLatency bad :: post)
      = New addr env st (pre ++ post) := by
  unfold New
  cases latencyFromEnv env "100ms" with
  | none => rfl
  | some lat => simp [List.foldl_append, WithLatency, h]

/-- Witness for C8 at the unparseable option "bogus". -/
theorem new_discards_withLatency_error_witness :
    New ":8088" none seedStore ([] ++ WithLatency "bogus" :: [])
      = New ":8088" none seedStore ([] ++ []) :=
  new_discards_withLatency_error ":8088" none seedStore "bogus" [] [] rfl

end Coffeeshop
